import Mathlib

/-!
A verification development for the questrade-portfolio-microservices
repository: a shallow embedding of the token lifecycle manager
(questrade-auth-api/src/services/tokenManager.js and the copy of the same
class shipped inside questrade-market-api/src/models/Quote.js), the
rate-limited gateway client (QuestradeClient), the quote cache
(QuoteService) and the portfolio-side market data service
(MarketDataService), together with theorems settling the specification
claims about them.

Times are modelled as integer milliseconds.  MongoDB collections are
modelled as lists of rows; `findOne(...).sort({createdAt:-1})` picks the
matching row with the greatest `createdAt`; `deleteMany` filters rows out;
`save` appends.  Token encryption is modelled as the identity
(`getDecryptedToken` returns the stored value), per the spec's
"opaque secret, encrypted" description - the Token model file itself is
not part of the sources.
-/

deriving instance DecidableEq for Except

namespace Spec2Proof

/-! ## Credential store model -/

inductive TokenType
  | access
  | refresh
deriving DecidableEq

/-- One row of the `tokens` collection.  `token` holds the decrypted
secret (encryption is modelled as the identity). -/
structure TokenRow where
  personName : String
  type : TokenType
  token : String
  apiServer : Option String := none
  expiresAt : Int
  isActive : Bool
  errorCount : Nat := 0
  lastError : Option String := none
  lastUsed : Option Int := none
  createdAt : Int
deriving DecidableEq

abbrev Store := List TokenRow

/-- `Token.findOne(query).sort({ createdAt: -1 })`: the matching row with
the greatest `createdAt` (the first such row on ties). -/
def findLatest (p : TokenRow → Bool) (s : Store) : Option TokenRow :=
  s.foldl
    (fun acc r =>
      if p r then
        match acc with
        | none => some r
        | some b => if b.createdAt < r.createdAt then some r else some b
      else acc)
    none

/-- `Token.findOneAndUpdate(query, update)`: update the first matching
row, leave the rest unchanged. -/
def updateFirst (p : TokenRow → Bool) (f : TokenRow → TokenRow) : Store → Store
  | [] => []
  | r :: rest => if p r then f r :: rest else r :: updateFirst p f rest

def isActiveRefreshFor (person : String) (r : TokenRow) : Bool :=
  r.personName = person && r.type = TokenType.refresh && r.isActive

def isActiveAccessFor (person : String) (r : TokenRow) : Bool :=
  r.personName = person && r.type = TokenType.access && r.isActive

/-- Query used by `getValidAccessToken`: active access token with
`expiresAt: { $gt: new Date() }`. -/
def validAccessPred (person : String) (now : Int) (r : TokenRow) : Bool :=
  r.personName = person && r.type = TokenType.access && r.isActive &&
    now < r.expiresAt

/-! ## TokenManager (questrade-auth-api/src/services/tokenManager.js) -/

/-- Response body of `POST /oauth2/token`.  Absent tokens are modelled by
the empty string (JS falsiness of the destructured field); `api_server`
may be absent. -/
structure OAuthResp where
  access_token : String
  refresh_token : String
  api_server : Option String
  expires_in : Int
deriving DecidableEq

inductive UpstreamFailure
  | http (status : Nat)
  | network
deriving DecidableEq

inductive TMError
  | noRefreshToken
  | invalidRefreshTokenFormat
  | missingTokens
  | invalidOrExpiredRefreshToken
  | unauthorized
  | upstream (f : UpstreamFailure)
deriving DecidableEq

def TMError.message : TMError → String
  | .noRefreshToken => "No active refresh token found"
  | .invalidRefreshTokenFormat => "Invalid refresh token format"
  | .missingTokens => "Invalid response from Questrade API - missing tokens"
  | .invalidOrExpiredRefreshToken => "Invalid or expired refresh token"
  | .unauthorized => "Unauthorized access"
  | .upstream _ => "Request failed"

structure TokenData where
  accessToken : String
  apiServer : Option String
  personName : String
  expiresAt : Int
deriving DecidableEq

/-- JS `String.prototype.endsWith`. -/
def jsEndsWith (s suffixString : String) : Bool :=
  List.isSuffixOf suffixString.data s.data

/-- JS `String.prototype.startsWith`. -/
def jsStartsWith (s startString : String) : Bool :=
  List.isPrefixOf startString.data s.data

/-- JS `s.slice(0, -1)`: the string without its last character. -/
def jsDropLast (s : String) : String :=
  String.mk s.data.dropLast

/-- The api_server formatting block of the auth-api `refreshAccessToken`
(and `setupPersonToken`): drop one trailing slash, then add an
`https://` scheme when none is present.  The `s ≠ ""` guards mirror JS
truthiness of the intermediate string. -/
def formatApiServer : Option String → Option String
  | none => none
  | some s =>
    let s1 := if s ≠ "" ∧ jsEndsWith s "/" then jsDropLast s else s
    let s2 :=
      if s1 ≠ "" ∧ ¬ jsStartsWith s1 "http://" ∧ ¬ jsStartsWith s1 "https://" then
        "https://" ++ s1
      else s1
    some s2

def newAccessRow (person : String) (apiServer : Option String)
    (resp : OAuthResp) (now : Int) : TokenRow :=
  { personName := person
    type := TokenType.access
    token := resp.access_token
    apiServer := apiServer
    expiresAt := now + resp.expires_in * 1000
    isActive := true
    createdAt := now }

def newRefreshRow (person : String) (resp : OAuthResp) (now : Int) : TokenRow :=
  { personName := person
    type := TokenType.refresh
    token := resp.refresh_token
    expiresAt := now + 7 * 24 * 60 * 60 * 1000
    isActive := true
    createdAt := now }

/-- The `$inc`/`$set` update document of `recordTokenError`. -/
def bumpError (msg : String) (now : Int) (r : TokenRow) : TokenRow :=
  { r with errorCount := r.errorCount + 1, lastError := some msg,
           lastUsed := some now }

/-- `TokenManager.recordTokenError`: bump `errorCount` and stamp
`lastError`/`lastUsed` on the active refresh row (the person-health
update is outside the credential store model). -/
def recordTokenError (store : Store) (person : String) (msg : String)
    (now : Int) : Store :=
  updateFirst (isActiveRefreshFor person) (bumpError msg now) store

/-- The three credential-store writes of the success path of the auth-api
`refreshAccessToken`, in program order: `Token.deleteMany({ personName,
isActive: true })`, save the new access row, save the new refresh row. -/
def refreshWrites (person : String) (resp : OAuthResp) (now : Int) :
    List (Store → Store) :=
  [ fun s => s.filter (fun r => ¬ (r.personName = person ∧ r.isActive)),
    fun s => s ++ [newAccessRow person (formatApiServer resp.api_server) resp now],
    fun s => s ++ [newRefreshRow person resp now] ]

/-- The `catch` block of `refreshAccessToken`: record the error on the
active refresh row, then rethrow (a 400 upstream status wrapped as
"invalid or expired refresh token", a 401 as "unauthorized", others
as-is). -/
def refreshFailure (store : Store) (person : String) (now : Int)
    (e : TMError) : Store × Except TMError TokenData :=
  (recordTokenError store person e.message now, Except.error e)

/-- Classification of an upstream OAuth failure by the `catch` block:
`error.response.status === 400`, `=== 401`, anything else rethrown. -/
def classifyOAuthFailure : UpstreamFailure → TMError
  | UpstreamFailure.http s =>
      if s = 400 then TMError.invalidOrExpiredRefreshToken
      else if s = 401 then TMError.unauthorized
      else TMError.upstream (UpstreamFailure.http s)
  | UpstreamFailure.network => TMError.upstream UpstreamFailure.network

/-- `TokenManager.refreshAccessToken` (auth-api version).  `upstream` is
the outcome of the `POST /oauth2/token` call; it is consulted only after
the refresh-row lookup and the format check pass.  Every failure is
routed through `recordTokenError` before being rethrown, as in the
`catch` block. -/
def refreshAccessToken (store : Store) (person : String) (now : Int)
    (upstream : Except UpstreamFailure OAuthResp) :
    Store × Except TMError TokenData :=
  match findLatest (isActiveRefreshFor person) store with
  | none => refreshFailure store person now TMError.noRefreshToken
  | some rdoc =>
    if rdoc.token = "" ∨ rdoc.token.length < 20 then
      refreshFailure store person now TMError.invalidRefreshTokenFormat
    else
      match upstream with
      | Except.error f => refreshFailure store person now (classifyOAuthFailure f)
      | Except.ok resp =>
        if resp.access_token = "" ∨ resp.refresh_token = "" then
          refreshFailure store person now TMError.missingTokens
        else
          ((refreshWrites person resp now).foldl (fun s w => w s) store,
           Except.ok
             { accessToken := resp.access_token
               apiServer := formatApiServer resp.api_server
               personName := person
               expiresAt := now + resp.expires_in * 1000 })

/-- `accessToken.markAsUsed()`.  Modelled from the spec: the Token model
file is absent from the sources; the spec's `lastUsed` field and
"records it as used" fix its meaning as stamping `lastUsed` on that
row. -/
def markAsUsed (store : Store) (row : TokenRow) (now : Int) : Store :=
  updateFirst (fun r => r = row) (fun r => { r with lastUsed := some now }) store

/-- `TokenManager.getValidAccessToken` (auth-api version). -/
def getValidAccessToken (store : Store) (person : String) (now : Int)
    (upstream : Except UpstreamFailure OAuthResp) :
    Store × Except TMError TokenData :=
  match findLatest (validAccessPred person now) store with
  | some row =>
      (markAsUsed store row now,
       Except.ok
         { accessToken := row.token
           apiServer := row.apiServer
           personName := person
           expiresAt := row.expiresAt })
  | none => refreshAccessToken store person now upstream

/-- `TokenManager.setupPersonToken` (auth-api version).  Its `catch`
block only logs and rethrows, so failures leave the store unchanged.
`Token.deleteMany({ personName })` removes every row of the person,
then the new refresh row and the new access row are saved, in that
order. -/
def setupPersonToken (store : Store) (person : String) (refreshToken : String)
    (now : Int) (upstream : Except UpstreamFailure OAuthResp) :
    Store × Except TMError TokenData :=
  if refreshToken = "" ∨ refreshToken.length < 20 then
    (store, Except.error TMError.invalidRefreshTokenFormat)
  else
    match upstream with
    | Except.error f => (store, Except.error (TMError.upstream f))
    | Except.ok resp =>
      if resp.access_token = "" ∨ resp.refresh_token = "" then
        (store, Except.error TMError.missingTokens)
      else
        let s1 := store.filter (fun r => ¬ r.personName = person)
        let s2 := s1 ++ [newRefreshRow person resp now]
        let s3 := s2 ++ [newAccessRow person (formatApiServer resp.api_server) resp now]
        (s3,
         Except.ok
           { accessToken := resp.access_token
             apiServer := formatApiServer resp.api_server
             personName := person
             expiresAt := now + resp.expires_in * 1000 })

/-- `TokenManager.deletePersonTokens`: soft-deactivate every row of the
person (`Token.updateMany({ personName }, { isActive: false })`). -/
def deletePersonTokens (store : Store) (person : String) : Store :=
  store.map (fun r => if r.personName = person then { r with isActive := false } else r)

/-! ## Gateway client (QuestradeClient.makeRequest) -/

/-- Upstream's reaction to one attempt of the wrapped HTTP call. -/
inductive UpstreamResp (α : Type)
  | ok (payload : α)
  | httpErr (status : Nat)
  | network
deriving DecidableEq

/-- What a `makeRequest` invocation ends in.  The code has no retry
bound: every 401 triggers a refresh POST and a recursive
`this.makeRequest(...)`, so `pending` records that the client is still
waiting for yet another upstream response.  Note there is no
authentication-failed constructor: the only errors the code ever
rethrows are the non-401 upstream errors themselves. -/
inductive GwOutcome (α : Type)
  | success (payload : α)
  | failure (status : Option Nat)
  | pending
deriving DecidableEq

structure GwRun (α : Type) where
  outcome : GwOutcome α
  attempts : Nat
  refreshes : Nat
deriving DecidableEq

/-- `QuestradeClient.makeRequest`, driven by the list of upstream
responses, one per attempt.  A 401 consumes a refresh POST to the Auth
API and recurses on the remaining responses; any other response ends
the call. -/
def makeRequestAux {α : Type} : List (UpstreamResp α) → Nat → Nat → GwRun α
  | [], a, f => ⟨GwOutcome.pending, a, f⟩
  | r :: rest, a, f =>
    match r with
    | UpstreamResp.ok p => ⟨GwOutcome.success p, a + 1, f⟩
    | UpstreamResp.httpErr s =>
        if s = 401 then makeRequestAux rest (a + 1) (f + 1)
        else ⟨GwOutcome.failure (some s), a + 1, f⟩
    | UpstreamResp.network => ⟨GwOutcome.failure none, a + 1, f⟩

def makeRequest {α : Type} (responses : List (UpstreamResp α)) : GwRun α :=
  makeRequestAux responses 0 0

/-! ## Rate limiter (QuestradeClient.waitForRateLimit) -/

/-- The two mutable counters of `QuestradeClient`. -/
structure RLState where
  lastResetTime : Nat
  requestsThisSecond : Nat
deriving DecidableEq

/-- `QuestradeClient.waitForRateLimit`, sequentially: given the state and
`Date.now()` at entry, returns the state after the call and the time at
which the admitted request actually starts (entry time, or the resume
time of the `setTimeout` wait). -/
def waitForRateLimit (maxPerSecond : Nat) (s : RLState) (now : Nat) :
    RLState × Nat :=
  let s1 := if 1000 ≤ now - s.lastResetTime then RLState.mk now 0 else s
  if maxPerSecond ≤ s1.requestsThisSecond then
    let waitTime := 1000 - (now - s1.lastResetTime)
    if 0 < waitTime then
      let t := now + waitTime
      (RLState.mk t 1, t)
    else
      (RLState.mk s1.lastResetTime (s1.requestsThisSecond + 1), now)
  else
    (RLState.mk s1.lastResetTime (s1.requestsThisSecond + 1), now)

/-- Run a sequence of `waitForRateLimit` calls at the given entry times;
returns the final state and, per call, the pair (window id = the
`lastResetTime` in force when the call was admitted, start time). -/
def runRL (maxPerSecond : Nat) (s : RLState) : List Nat → RLState × List (Nat × Nat)
  | [] => (s, [])
  | a :: rest =>
    let p := waitForRateLimit maxPerSecond s a
    let q := runRL maxPerSecond p.1 rest
    (q.1, (p.1.lastResetTime, p.2) :: q.2)

/-- A sequential trace is admissible when every call enters at or after
the `lastResetTime` in force at that moment (true of every realizable
trace, since `lastResetTime` never exceeds the completion time of the
call that set it). -/
def admissibleRL (maxPerSecond : Nat) (s : RLState) : List Nat → Bool
  | [] => true
  | a :: rest =>
    s.lastResetTime ≤ a &&
      admissibleRL maxPerSecond (waitForRateLimit maxPerSecond s a).1 rest

/-- Modelled from the spec: the `p-limit` dependency is not under the
sources; per the spec it is a FIFO admission gate that starts a
submitted task at once when fewer than `maxConcurrent` tasks run and no
task queues ahead of it, and otherwise queues it; when a running task
finishes, the head of the queue (if any) starts in its place. -/
structure PLimitState where
  active : Nat
  pending : Nat
deriving DecidableEq

inductive PLimitEvent
  | submit
  | finish
deriving DecidableEq

def pLimitStep (maxConcurrent : Nat) (s : PLimitState) :
    PLimitEvent → PLimitState
  | PLimitEvent.submit =>
      if s.active < maxConcurrent ∧ s.pending = 0 then
        PLimitState.mk (s.active + 1) s.pending
      else PLimitState.mk s.active (s.pending + 1)
  | PLimitEvent.finish =>
      if 0 < s.pending then PLimitState.mk s.active (s.pending - 1)
      else PLimitState.mk (s.active - 1) 0

def pLimitRun (maxConcurrent : Nat) (events : List PLimitEvent) : PLimitState :=
  events.foldl (pLimitStep maxConcurrent) (PLimitState.mk 0 0)

/-! ## JavaScript number model

IEEE doubles are modelled as exact rationals extended with NaN and the
two infinities; the abstraction keeps NaN/infinity propagation,
division-by-zero behaviour, and overflow of arithmetic past the largest
finite double (results saturate to the infinities, as IEEE doubles do),
but not the rounding of in-range finite results. -/

/-- The largest finite IEEE double, (2 - 2^-52) * 2^1023, exactly. -/
def maxDouble : ℚ := 2 ^ 1024 - 2 ^ 971

inductive JSNum
  | fin (q : ℚ)
  | nan
  | inf
  | neginf
deriving DecidableEq

namespace JSNum

def isFin : JSNum → Bool
  | fin _ => true
  | _ => false

/-- Overflow at an arithmetic boundary: an exact result beyond the
double range becomes the corresponding infinity. -/
def fitDouble (q : ℚ) : JSNum :=
  if maxDouble < q then inf
  else if q < -maxDouble then neginf
  else fin q

/-- JS `isNaN(x)` on a number. -/
def isNaNb : JSNum → Bool
  | nan => true
  | _ => false

/-- JS `isFinite(x)` on a number. -/
def isFiniteb : JSNum → Bool :=
  isFin

/-- JS `x > 0`. -/
def gtZero : JSNum → Bool
  | fin q => decide (0 < q)
  | inf => true
  | _ => false

def sub : JSNum → JSNum → JSNum
  | fin a, fin b => fitDouble (a - b)
  | nan, _ => nan
  | _, nan => nan
  | inf, inf => nan
  | inf, _ => inf
  | neginf, neginf => nan
  | neginf, _ => neginf
  | fin _, inf => neginf
  | fin _, neginf => inf

def mul : JSNum → JSNum → JSNum
  | fin a, fin b => fitDouble (a * b)
  | nan, _ => nan
  | _, nan => nan
  | inf, inf => inf
  | inf, neginf => neginf
  | neginf, inf => neginf
  | neginf, neginf => inf
  | inf, fin b => if b = 0 then nan else if 0 < b then inf else neginf
  | neginf, fin b => if b = 0 then nan else if 0 < b then neginf else inf
  | fin a, inf => if a = 0 then nan else if 0 < a then inf else neginf
  | fin a, neginf => if a = 0 then nan else if 0 < a then neginf else inf

def div : JSNum → JSNum → JSNum
  | fin a, fin b =>
      if b = 0 then (if a = 0 then nan else if 0 < a then inf else neginf)
      else fitDouble (a / b)
  | nan, _ => nan
  | _, nan => nan
  | inf, inf => nan
  | inf, neginf => nan
  | neginf, inf => nan
  | neginf, neginf => nan
  | inf, fin b => if 0 ≤ b then inf else neginf
  | neginf, fin b => if 0 ≤ b then neginf else inf
  | fin _, inf => fin 0
  | fin _, neginf => fin 0

/-- JS `Math.round` (half toward positive infinity, which `round` on ℚ
matches). -/
def jround : JSNum → JSNum
  | fin q => fin (round q : ℤ)
  | nan => nan
  | inf => inf
  | neginf => neginf

end JSNum

/-- An upstream JSON field value: absent, null, or a present value
carrying its JS truthiness and its `Number(...)` coercion. -/
inductive JSVal
  | undef
  | null
  | present (truthy : Bool) (toNumber : JSNum)
deriving DecidableEq

def JSVal.truthyB : JSVal → Bool
  | undef => false
  | null => false
  | present t _ => t

/-- The JS number literal `0` as a field value. -/
def JSVal.zero : JSVal :=
  JSVal.present false (JSNum.fin 0)

/-- A present value that is absent, null, or whose numeric coercion is
NaN or infinite. -/
def JSVal.malformedNumeric : JSVal → Bool
  | JSVal.undef => true
  | JSVal.null => true
  | JSVal.present _ n => ¬ n.isFin

/-! ## QuoteService (questrade-market-api/src/services/quoteService.js) -/

/-- `QuoteService.safeParseNumber`: default on `undefined`/`null`, coerce
with `Number(...)`, and default again when the result is NaN or not
finite. -/
def safeParseNumber (v : JSVal) (defaultValue : ℚ := 0) : JSNum :=
  match v with
  | JSVal.undef => JSNum.fin defaultValue
  | JSVal.null => JSNum.fin defaultValue
  | JSVal.present _ n =>
      if n.isNaNb ∨ ¬ n.isFiniteb then JSNum.fin defaultValue else n

/-- The numeric fields of a raw Questrade quote payload, as consumed by
`transformQuestradeQuote` (the non-numeric passthrough fields - symbol,
tick, timestamps, exchange, halt flag - are not modelled). -/
structure QPayload where
  symbolId : JSVal
  lastTradePrice : JSVal
  lastTradeSize : JSVal
  bidPrice : JSVal
  bidSize : JSVal
  askPrice : JSVal
  askSize : JSVal
  openPrice : JSVal
  highPrice : JSVal
  lowPrice : JSVal
  closePrice : JSVal
  previousClosePrice : JSVal
  change : JSVal
  changePercent : JSVal
  dayChange : JSVal
  dayChangePercent : JSVal
  volume : JSVal
  averageVolume : JSVal
  VWAP : JSVal
  high52w : JSVal
  low52w : JSVal
  delay : JSVal
deriving DecidableEq

/-- The numeric fields of the object `transformQuestradeQuote` returns. -/
structure TransQuote where
  symbolId : JSNum
  lastTradePrice : JSNum
  lastTradeSize : JSNum
  bidPrice : JSNum
  bidSize : JSNum
  askPrice : JSNum
  askSize : JSNum
  openPrice : JSNum
  highPrice : JSNum
  lowPrice : JSNum
  closePrice : JSNum
  previousClosePrice : JSNum
  change : JSNum
  changePercent : JSNum
  dayChange : JSNum
  dayChangePercent : JSNum
  volume : JSNum
  averageVolume : JSNum
  volumeWeightedAveragePrice : JSNum
  week52High : JSNum
  week52Low : JSNum
  delay : JSNum
deriving DecidableEq

/-- The `change` computation of `transformQuestradeQuote`, before
rounding: the upstream value when present (not undefined/null), else
`lastTradePrice - previousClosePrice` under the positivity and
NaN/finiteness guards, else `0`. -/
def qChangeRaw (p : QPayload) : JSNum :=
  let lastTradePrice := safeParseNumber p.lastTradePrice
  let previousClosePrice := safeParseNumber p.previousClosePrice
  if p.change ≠ JSVal.undef ∧ p.change ≠ JSVal.null then
    safeParseNumber p.change
  else if lastTradePrice.gtZero ∧ previousClosePrice.gtZero then
    let c := lastTradePrice.sub previousClosePrice
    if c.isNaNb ∨ ¬ c.isFiniteb then JSNum.fin 0 else c
  else JSNum.fin 0

/-- The `changePercent` computation of `transformQuestradeQuote`, before
rounding. -/
def qChangePercentRaw (p : QPayload) : JSNum :=
  let previousClosePrice := safeParseNumber p.previousClosePrice
  if p.changePercent ≠ JSVal.undef ∧ p.changePercent ≠ JSVal.null then
    safeParseNumber p.changePercent
  else if previousClosePrice.gtZero ∧ ¬ (qChangeRaw p).isNaNb then
    let cp := ((qChangeRaw p).div previousClosePrice).mul (JSNum.fin 100)
    if cp.isNaNb ∨ ¬ cp.isFiniteb then JSNum.fin 0 else cp
  else JSNum.fin 0

/-- `Math.round(x * 100) / 100`. -/
def qRound2 (a : JSNum) : JSNum :=
  ((a.mul (JSNum.fin 100)).jround).div (JSNum.fin 100)

/-- `QuoteService.transformQuestradeQuote`, numeric fields. -/
def transformQuestradeQuote (p : QPayload) : TransQuote :=
  let lastTradePrice := safeParseNumber p.lastTradePrice
  let previousClosePrice := safeParseNumber p.previousClosePrice
  let change := qRound2 (qChangeRaw p)
  let changePercent := qRound2 (qChangePercentRaw p)
  let dayChange :=
    if p.dayChange ≠ JSVal.undef then safeParseNumber p.dayChange else change
  let dayChangePercent :=
    if p.dayChangePercent ≠ JSVal.undef then safeParseNumber p.dayChangePercent
    else changePercent
  { symbolId := safeParseNumber p.symbolId 0
    lastTradePrice := lastTradePrice
    lastTradeSize := safeParseNumber p.lastTradeSize
    bidPrice := safeParseNumber p.bidPrice
    bidSize := safeParseNumber p.bidSize
    askPrice := safeParseNumber p.askPrice
    askSize := safeParseNumber p.askSize
    openPrice := safeParseNumber p.openPrice
    highPrice := safeParseNumber p.highPrice
    lowPrice := safeParseNumber p.lowPrice
    closePrice := safeParseNumber p.closePrice
    previousClosePrice := previousClosePrice
    change := change
    changePercent := changePercent
    dayChange := dayChange
    dayChangePercent := dayChangePercent
    volume := safeParseNumber p.volume
    averageVolume := safeParseNumber p.averageVolume
    volumeWeightedAveragePrice := safeParseNumber p.VWAP
    week52High := safeParseNumber p.high52w
    week52Low := safeParseNumber p.low52w
    delay := safeParseNumber p.delay }

/-- A cached quote document (`Quote` model): payload plus `lastUpdated`. -/
structure CachedQuote where
  quote : TransQuote
  lastUpdated : Int
deriving DecidableEq

/-- `quoteSchema.methods.isStale`: age strictly greater than
`seconds * 1000` milliseconds. -/
def CachedQuote.isStale (c : CachedQuote) (seconds : Int) (now : Int) : Bool :=
  decide (seconds * 1000 < now - c.lastUpdated)

/-- What `getQuote` hands back: the cached document, or a freshly
transformed quote. -/
inductive QuoteResult
  | fromCache (c : CachedQuote)
  | fresh (t : TransQuote)
deriving DecidableEq

/-- The fetch-and-fallback part of `QuoteService.getQuote`: fetch via
`fetchQuoteFromQuestrade` (outcome given as `fetched`), save to the
cache on success; on failure re-read the cache and serve the entry
regardless of age, rethrowing only when there is none. -/
def getQuoteFetchPath (cache : Option CachedQuote) (now : Int)
    (fetched : Except String QPayload) :
    Option CachedQuote × Except String QuoteResult :=
  match fetched with
  | Except.ok payload =>
    let t := transformQuestradeQuote payload
    (some ⟨t, now⟩, Except.ok (QuoteResult.fresh t))
  | Except.error msg =>
    match cache with
    | some c => (cache, Except.ok (QuoteResult.fromCache c))
    | none => (cache, Except.error msg)

/-- `QuoteService.getQuote(symbol, forceRefresh)` for one symbol: the
symbol's cache entry is `cache`, the TTL is
`config.market.marketDataCacheTTL` seconds, and `fetched` is the outcome
of the live fetch (consulted only when the fresh-cache check does not
short-circuit). -/
def getQuote (cache : Option CachedQuote) (ttlSeconds : Int) (now : Int)
    (forceRefresh : Bool) (fetched : Except String QPayload) :
    Option CachedQuote × Except String QuoteResult :=
  if forceRefresh = false then
    match cache with
    | some c =>
        if c.isStale ttlSeconds now = false then
          (cache, Except.ok (QuoteResult.fromCache c))
        else getQuoteFetchPath cache now fetched
    | none => getQuoteFetchPath cache now fetched
  else getQuoteFetchPath cache now fetched

/-! ## TokenManager copy in questrade-market-api/src/models/Quote.js

The market-api ships a second copy of the TokenManager class whose
`refreshAccessToken` stores and returns the upstream `api_server` as-is:
it has no formatting block. -/

/-- `TokenManager.refreshAccessToken` as found in
questrade-market-api/src/models/Quote.js: identical control flow to the
auth-api version, but `apiServer` is stored raw. -/
def marketRefreshAccessToken (store : Store) (person : String) (now : Int)
    (upstream : Except UpstreamFailure OAuthResp) :
    Store × Except TMError TokenData :=
  match findLatest (isActiveRefreshFor person) store with
  | none => refreshFailure store person now TMError.noRefreshToken
  | some rdoc =>
    if rdoc.token = "" ∨ rdoc.token.length < 20 then
      refreshFailure store person now TMError.invalidRefreshTokenFormat
    else
      match upstream with
      | Except.error f => refreshFailure store person now (classifyOAuthFailure f)
      | Except.ok resp =>
        if resp.access_token = "" ∨ resp.refresh_token = "" then
          refreshFailure store person now TMError.missingTokens
        else
          let s1 := store.filter (fun r => ¬ (r.personName = person ∧ r.isActive))
          let s2 := s1 ++ [newAccessRow person resp.api_server resp now]
          let s3 := s2 ++ [newRefreshRow person resp now]
          (s3,
           Except.ok
             { accessToken := resp.access_token
               apiServer := resp.api_server
               personName := person
               expiresAt := now + resp.expires_in * 1000 })

/-! ## MarketDataService (questrade-portfolio-api, getCurrentPrice) -/

/-- The quote fields `getCurrentPrice` reads from the Market API
response body. -/
structure MDQuote where
  lastTradePrice : JSVal
  openPrice : JSVal
  previousClosePrice : JSVal
  dayChange : JSVal
  dayChangePercent : JSVal
  volume : JSVal
deriving DecidableEq

/-- JS `a || b`. -/
def jsOr (a b : JSVal) : JSVal :=
  if a.truthyB then a else b

structure PriceData where
  currentPrice : JSVal
  openPrice : JSVal
  previousClose : JSVal
  dayChange : JSVal
  dayChangePercent : JSVal
  volume : JSVal
deriving DecidableEq

/-- The `priceData` object literal built inside `getCurrentPrice` (its
`timestamp: new Date()` field lives on the cache entry). -/
def buildPriceData (q : MDQuote) : PriceData :=
  { currentPrice := jsOr q.lastTradePrice JSVal.zero
    openPrice := jsOr q.openPrice (jsOr q.lastTradePrice JSVal.zero)
    previousClose := jsOr q.previousClosePrice JSVal.zero
    dayChange := jsOr q.dayChange JSVal.zero
    dayChangePercent := jsOr q.dayChangePercent JSVal.zero
    volume := jsOr q.volume JSVal.zero }

/-- A `priceCache` entry: `{ data, timestamp }`. -/
structure PriceEntry where
  data : PriceData
  timestamp : Int
deriving DecidableEq

/-- The outcome of the `axios.get` to the Market API: a rejection, or a
resolved response whose body either passes the
`data && data.success && data.data` check (`respOk (some q)`) or does
not (`respOk none`). -/
inductive MDFetch
  | throwErr (msg : String)
  | respOk (usable : Option MDQuote)
deriving DecidableEq

/-- `this.cacheTimeout = 60000`. -/
def mdCacheTimeout : Int := 60000

/-- The fetch part of the `try` block of `getCurrentPrice`: a rejected
request throws; an unusable body returns `null`; a usable quote builds
`priceData`, caches it and returns it. -/
def getCurrentPriceFetch (cache : Option PriceEntry) (now : Int)
    (fetch : MDFetch) :
    Except String (Option PriceEntry × Option PriceData) :=
  match fetch with
  | MDFetch.throwErr msg => Except.error msg
  | MDFetch.respOk none => Except.ok (cache, none)
  | MDFetch.respOk (some q) =>
      let pd := buildPriceData q
      Except.ok (some ⟨pd, now⟩, some pd)

/-- The whole `try` block of `MarketDataService.getCurrentPrice`: a
fresh cache entry short-circuits; otherwise the fetch runs. -/
def getCurrentPriceTry (cache : Option PriceEntry) (now : Int)
    (fetch : MDFetch) :
    Except String (Option PriceEntry × Option PriceData) :=
  match cache with
  | some c =>
      if now - c.timestamp < mdCacheTimeout then Except.ok (cache, some c.data)
      else getCurrentPriceFetch cache now fetch
  | none => getCurrentPriceFetch cache now fetch

/-- `MarketDataService.getCurrentPrice`: the `catch` block serves the
cached entry regardless of age when one exists and otherwise returns
`null`; it never rethrows.  The result pairs the cache after the call
with the returned value (`none` = JS `null`). -/
def getCurrentPrice (cache : Option PriceEntry) (now : Int) (fetch : MDFetch) :
    Except String (Option PriceEntry × Option PriceData) :=
  match getCurrentPriceTry cache now fetch with
  | Except.ok r => Except.ok r
  | Except.error _ =>
      match cache with
      | some c => Except.ok (cache, some c.data)
      | none => Except.ok (cache, none)

/-! ## Two concurrent getValidAccessToken calls

The auth-api `getValidAccessToken`/`refreshAccessToken` pair takes no
per-person lock; its `await` points let two request handlers interleave
against the shared store.  Each caller is modelled at the granularity of
its await boundaries: program counter 0 = about to run the
`Token.findOne` access-token lookup, 1 = about to run the refresh body
(refresh-row lookup, upstream OAuth POST, rotation writes), 2 = done.
The upstream-call counter increments whenever a caller reaches the
`axios.post` in `refreshAccessToken`, i.e. whenever the refresh-row
lookup and format check pass. -/

/-- True when `refreshAccessToken`, run on this store, reaches the
upstream OAuth call. -/
def refreshConsultsUpstream (store : Store) (person : String) : Bool :=
  match findLatest (isActiveRefreshFor person) store with
  | none => false
  | some rdoc => ¬ (rdoc.token = "" ∨ rdoc.token.length < 20)

structure ConcState where
  store : Store
  upstreamRefreshCalls : Nat
  pcA : Nat
  pcB : Nat
deriving DecidableEq

/-- One atomic slice of one caller of `getValidAccessToken`. -/
def callerStep (person : String) (now : Int)
    (upstream : Except UpstreamFailure OAuthResp)
    (pc : Nat) (store : Store) (calls : Nat) : Nat × Store × Nat :=
  match pc with
  | 0 =>
    match findLatest (validAccessPred person now) store with
    | some row => (2, markAsUsed store row now, calls)
    | none => (1, store, calls)
  | 1 =>
    (2, (refreshAccessToken store person now upstream).1,
     calls + (if refreshConsultsUpstream store person then 1 else 0))
  | _ => (pc, store, calls)

/-- Run one scheduler pick: `true` advances caller A, `false` caller B. -/
def concStep (person : String) (now : Int)
    (upstream : Except UpstreamFailure OAuthResp)
    (s : ConcState) (pickA : Bool) : ConcState :=
  if pickA then
    let r := callerStep person now upstream s.pcA s.store s.upstreamRefreshCalls
    { s with pcA := r.1, store := r.2.1, upstreamRefreshCalls := r.2.2 }
  else
    let r := callerStep person now upstream s.pcB s.store s.upstreamRefreshCalls
    { s with pcB := r.1, store := r.2.1, upstreamRefreshCalls := r.2.2 }

def concRun (person : String) (now : Int)
    (upstream : Except UpstreamFailure OAuthResp)
    (sched : List Bool) (s : ConcState) : ConcState :=
  sched.foldl (concStep person now upstream) s

/-! ## Lifecycle operations and the per-person credential invariant -/

/-- At most one active refresh credential and at most one active access
credential for the person. -/
def credInvariant (s : Store) (person : String) : Prop :=
  s.countP (isActiveRefreshFor person) ≤ 1 ∧
    s.countP (isActiveAccessFor person) ≤ 1

instance (s : Store) (person : String) : Decidable (credInvariant s person) :=
  inferInstanceAs (Decidable (_ ∧ _))

/-- The credential-lifecycle operations of the claim: refresh, operator
enrollment, soft delete. -/
inductive LifecycleOp
  | refreshOp (person : String) (now : Int)
      (upstream : Except UpstreamFailure OAuthResp)
  | setupOp (person : String) (refreshToken : String) (now : Int)
      (upstream : Except UpstreamFailure OAuthResp)
  | deleteOp (person : String)

/-- The credential store after a completed lifecycle operation
(successful or failed - a failed operation completes by rethrowing). -/
def applyLifecycleOp (store : Store) : LifecycleOp → Store
  | LifecycleOp.refreshOp person now upstream =>
      (refreshAccessToken store person now upstream).1
  | LifecycleOp.setupOp person refreshToken now upstream =>
      (setupPersonToken store person refreshToken now upstream).1
  | LifecycleOp.deleteOp person => deletePersonTokens store person

/-! ## Concrete fixtures -/

def aliceOldAccess : TokenRow :=
  { personName := "alice"
    type := TokenType.access
    token := "oldAccessTokenValue"
    apiServer := some "https://api01.iq.questrade.com"
    expiresAt := 2000000
    isActive := true
    createdAt := 0 }

def aliceOldRefresh : TokenRow :=
  { personName := "alice"
    type := TokenType.refresh
    token := "abcdefghijklmnopqrstuvwxyz"
    expiresAt := 600000000
    isActive := true
    createdAt := 0 }

/-- `aliceOldAccess` already past its expiry at observation time 1000. -/
def aliceExpiredAccess : TokenRow :=
  { aliceOldAccess with expiresAt := 500 }

def demoOAuthResp : OAuthResp :=
  { access_token := "newAccessTokenValue"
    refresh_token := "ABCDEFGHIJKLMNOPQRSTUVWXYZ"
    api_server := some "https://api02.iq.questrade.com/"
    expires_in := 1800 }

/-- An OAuth response whose `api_server` has no scheme and a trailing
slash. -/
def rawApiServerResp : OAuthResp :=
  { demoOAuthResp with api_server := some "api01.iq.questrade.com/" }

/-- A quote payload with every numeric field absent. -/
def emptyQPayload : QPayload :=
  { symbolId := JSVal.undef, lastTradePrice := JSVal.undef
    lastTradeSize := JSVal.undef, bidPrice := JSVal.undef
    bidSize := JSVal.undef, askPrice := JSVal.undef, askSize := JSVal.undef
    openPrice := JSVal.undef, highPrice := JSVal.undef
    lowPrice := JSVal.undef, closePrice := JSVal.undef
    previousClosePrice := JSVal.undef, change := JSVal.undef
    changePercent := JSVal.undef, dayChange := JSVal.undef
    dayChangePercent := JSVal.undef, volume := JSVal.undef
    averageVolume := JSVal.undef, VWAP := JSVal.undef
    high52w := JSVal.undef, low52w := JSVal.undef, delay := JSVal.undef }

/-- A payload whose `change` field is the finite double 1e307: it passes
`safeParseNumber` and every isFinite guard, but `change * 100`
overflows the double range inside the final rounding. -/
def overflowQPayload : QPayload :=
  { emptyQPayload with change := JSVal.present true (JSNum.fin (10 ^ 307)) }

/-- A payload carrying an explicit (null) `dayChange` and
`dayChangePercent`, so the transform takes their present branches. -/
def presentDayChangeQPayload : QPayload :=
  { emptyQPayload with dayChange := JSVal.null
                       dayChangePercent := JSVal.null }

/-- A cache entry fetched at time 0 (two minutes before observation time
120000 in the witnesses). -/
def staleCachedQuote : CachedQuote :=
  { quote := transformQuestradeQuote emptyQPayload, lastUpdated := 0 }

def demoMDQuote : MDQuote :=
  { lastTradePrice := JSVal.present true (JSNum.fin 101)
    openPrice := JSVal.undef
    previousClosePrice := JSVal.present true (JSNum.fin 100)
    dayChange := JSVal.undef
    dayChangePercent := JSVal.undef
    volume := JSVal.undef }

def demoPriceEntry : PriceEntry :=
  { data := buildPriceData demoMDQuote, timestamp := 0 }

/-! ## Claim theorems -/

/-- Claim C1: the spec says a 401 triggers exactly one refresh and one
retry, and a second consecutive 401 raises `AuthenticationFailedError`
with no third attempt.  The code instead recurses into `makeRequest`
with no retry bound: after two consecutive 401s it has issued two
refreshes and goes on to a third attempt (here answered with a success
it happily returns), and after two 401s alone it is still pending a
further attempt rather than failing - `GwOutcome` has no
authentication-failed constructor because the code never raises one. -/
theorem makeRequest_unbounded_retry_after_consecutive_401s :
    makeRequest
        [UpstreamResp.httpErr 401, UpstreamResp.httpErr 401, UpstreamResp.ok 7]
      = { outcome := GwOutcome.success 7, attempts := 3, refreshes := 2 }
    ∧ makeRequest (α := Nat) [UpstreamResp.httpErr 401, UpstreamResp.httpErr 401]
      = { outcome := GwOutcome.pending, attempts := 2, refreshes := 2 } := by
  decide

/-- Claim C2: from a store holding alice's active access/refresh pair, a
successful `refreshAccessToken` whose write sequence is interrupted
after its first store write (the `Token.deleteMany` that precedes both
saves) leaves a store with neither the old pair nor the new one -
here literally the empty store - refuting the no-gap property. -/
theorem refresh_delete_first_leaves_no_credentials :
    ([aliceOldAccess, aliceOldRefresh].countP (isActiveAccessFor "alice") = 1
      ∧ [aliceOldAccess, aliceOldRefresh].countP (isActiveRefreshFor "alice") = 1)
    ∧ (refreshAccessToken [aliceOldAccess, aliceOldRefresh] "alice" 1000
        (Except.ok demoOAuthResp)).2
      = Except.ok
          { accessToken := "newAccessTokenValue"
            apiServer := some "https://api02.iq.questrade.com"
            personName := "alice"
            expiresAt := 1801000 }
    ∧ ((refreshWrites "alice" demoOAuthResp 1000).take 1).foldl
        (fun s w => w s) [aliceOldAccess, aliceOldRefresh] = [] := by
  decide

/-- Claim C4: the code takes no per-person lock, so the interleaving in
which both callers run their access-token lookup before either refreshes
makes two concurrent `getValidAccessToken` calls for the same person
with an expired access token issue two upstream OAuth refresh calls,
not one. -/
theorem concurrent_getValidAccessToken_double_refresh :
    (concRun "alice" 1000 (Except.ok demoOAuthResp) [true, false, true, false]
        { store := [aliceExpiredAccess, aliceOldRefresh]
          upstreamRefreshCalls := 0, pcA := 0, pcB := 0 }).upstreamRefreshCalls
      = 2 ∧ (2 : Nat) ≠ 1 := by
  decide

/-- Claim C7: the TokenManager copy inside
questrade-market-api/src/models/Quote.js stores the upstream
`api_server` untouched: for a value with a trailing slash and no scheme
the stored `apiServer` keeps the trailing slash and gains no scheme,
while the auth-api formatting block would have normalized it. -/
theorem marketRefresh_stores_unnormalized_api_server :
    (marketRefreshAccessToken [aliceOldRefresh] "alice" 1000
        (Except.ok rawApiServerResp)).2
      = Except.ok
          { accessToken := "newAccessTokenValue"
            apiServer := some "api01.iq.questrade.com/"
            personName := "alice"
            expiresAt := 1801000 }
    ∧ (findLatest (isActiveAccessFor "alice")
        (marketRefreshAccessToken [aliceOldRefresh] "alice" 1000
          (Except.ok rawApiServerResp)).1).map TokenRow.apiServer
      = some (some "api01.iq.questrade.com/")
    ∧ jsEndsWith "api01.iq.questrade.com/" "/" = true
    ∧ jsStartsWith "api01.iq.questrade.com/" "https://" = false
    ∧ jsStartsWith "api01.iq.questrade.com/" "http://" = false
    ∧ formatApiServer (some "api01.iq.questrade.com/")
      = some "https://api01.iq.questrade.com" := by
  decide

/-- Claim C5, counterexample: with `maxPerSecond = 2`, the admissible
call trace entering at 0, 1, 999 and 1000 ms starts requests at 0, 1,
1000 and 1000 ms, so the rolling one-second window [1, 1001) contains 3
starts - more than `maxPerSecond`.  The counter window is reset-aligned,
not rolling. -/
theorem rateLimiter_rolling_window_exceeded :
    admissibleRL 2 { lastResetTime := 0, requestsThisSecond := 0 }
        [0, 1, 999, 1000] = true
    ∧ ((runRL 2 { lastResetTime := 0, requestsThisSecond := 0 }
        [0, 1, 999, 1000]).2.map Prod.snd) = [0, 1, 1000, 1000]
    ∧ ((runRL 2 { lastResetTime := 0, requestsThisSecond := 0 }
        [0, 1, 999, 1000]).2.map Prod.snd).countP
        (fun t => decide (1 ≤ t ∧ t < 1001)) = 3
    ∧ 2 < 3 := by
  decide

/-- Claim C6: `getValidAccessToken` returns the freshest active,
non-expired access token when one exists - stamping it as used and
independently of the upstream (no upstream call) - and otherwise
delegates to `refreshAccessToken`, which fails with the
no-refresh-token error when the person has no active refresh row. -/
theorem getValidAccessToken_behaviour
    (store : Store) (person : String) (now : Int)
    (upstream : Except UpstreamFailure OAuthResp) :
    (∀ row, findLatest (validAccessPred person now) store = some row →
      ∀ upstream2 : Except UpstreamFailure OAuthResp,
        getValidAccessToken store person now upstream2
          = (markAsUsed store row now,
             Except.ok
               { accessToken := row.token
                 apiServer := row.apiServer
                 personName := person
                 expiresAt := row.expiresAt }))
    ∧ (findLatest (validAccessPred person now) store = none →
        getValidAccessToken store person now upstream
          = refreshAccessToken store person now upstream)
    ∧ (findLatest (validAccessPred person now) store = none →
       findLatest (isActiveRefreshFor person) store = none →
        (getValidAccessToken store person now upstream).2
          = Except.error TMError.noRefreshToken) := by
  refine ⟨?_, ?_, ?_⟩
  · intro row h upstream2
    unfold getValidAccessToken
    rw [h]
  · intro h
    unfold getValidAccessToken
    rw [h]
  · intro h1 h2
    unfold getValidAccessToken refreshAccessToken
    rw [h1, h2]
    rfl

theorem getValidAccessToken_behaviour_witness :
    (getValidAccessToken [aliceOldAccess] "alice" 1000 (Except.ok demoOAuthResp)
      = (markAsUsed [aliceOldAccess] aliceOldAccess 1000,
         Except.ok
           { accessToken := "oldAccessTokenValue"
             apiServer := some "https://api01.iq.questrade.com"
             personName := "alice"
             expiresAt := 2000000 }))
    ∧ (getValidAccessToken [] "alice" 1000 (Except.ok demoOAuthResp)).2
      = Except.error TMError.noRefreshToken := by
  constructor
  · exact (getValidAccessToken_behaviour [aliceOldAccess] "alice" 1000
      (Except.ok demoOAuthResp)).1 aliceOldAccess (by decide)
      (Except.ok demoOAuthResp)
  · exact (getValidAccessToken_behaviour [] "alice" 1000
      (Except.ok demoOAuthResp)).2.2 (by decide) (by decide)

/-- Claim C8: when the live fetch fails, `getQuote` answers from the
symbol's cache entry whatever its age, and propagates the failure
exactly when no cache entry exists. -/
theorem getQuote_serves_stale_on_fetch_failure
    (cache : Option CachedQuote) (ttlSeconds now : Int) (forceRefresh : Bool)
    (msg : String) :
    (∀ c, cache = some c →
      (getQuote cache ttlSeconds now forceRefresh (Except.error msg)).2
        = Except.ok (QuoteResult.fromCache c))
    ∧ (cache = none →
      (getQuote cache ttlSeconds now forceRefresh (Except.error msg)).2
        = Except.error msg) := by
  constructor
  · rintro c rfl
    unfold getQuote getQuoteFetchPath
    by_cases hf : forceRefresh = false
    · simp only [if_pos hf]
      by_cases hs : c.isStale ttlSeconds now = false <;> simp [hs]
    · simp only [if_neg hf]
  · rintro rfl
    unfold getQuote getQuoteFetchPath
    by_cases hf : forceRefresh = false
    · simp only [if_pos hf]
    · simp only [if_neg hf]

theorem getQuote_serves_stale_on_fetch_failure_witness :
    staleCachedQuote.isStale 60 120000 = true
    ∧ (getQuote (some staleCachedQuote) 60 120000 false
        (Except.error "fetch failed")).2
      = Except.ok (QuoteResult.fromCache staleCachedQuote)
    ∧ (getQuote none 60 120000 false (Except.error "fetch failed")).2
      = Except.error "fetch failed" := by
  refine ⟨by decide, ?_, ?_⟩
  · exact (getQuote_serves_stale_on_fetch_failure (some staleCachedQuote) 60
      120000 false "fetch failed").1 staleCachedQuote rfl
  · exact (getQuote_serves_stale_on_fetch_failure none 60 120000 false
      "fetch failed").2 rfl

/-- Claim C10: `getCurrentPrice` never surfaces an error: a failed fetch
is answered from the cache entry when one exists (whatever its age) and
with `null` otherwise, and a response without usable price data yields
`null` as well. -/
theorem getCurrentPrice_recovers_from_failure
    (cache : Option PriceEntry) (now : Int) (fetch : MDFetch) :
    (∃ r, getCurrentPrice cache now fetch = Except.ok r)
    ∧ (∀ msg c, fetch = MDFetch.throwErr msg → cache = some c →
        getCurrentPrice cache now fetch = Except.ok (cache, some c.data))
    ∧ (∀ msg, fetch = MDFetch.throwErr msg → cache = none →
        getCurrentPrice cache now fetch = Except.ok (none, none))
    ∧ (∀ c, fetch = MDFetch.respOk none → cache = some c →
        mdCacheTimeout ≤ now - c.timestamp →
        getCurrentPrice cache now fetch = Except.ok (cache, none))
    ∧ (fetch = MDFetch.respOk none → cache = none →
        getCurrentPrice cache now fetch = Except.ok (none, none)) := by
  refine ⟨?_, ?_, ?_, ?_, ?_⟩
  · cases h : getCurrentPriceTry cache now fetch with
    | ok r => exact ⟨r, by unfold getCurrentPrice; rw [h]⟩
    | error e =>
      cases cache with
      | some c =>
          exact ⟨(some c, some c.data), by unfold getCurrentPrice; rw [h]⟩
      | none => exact ⟨(none, none), by unfold getCurrentPrice; rw [h]⟩
  · rintro msg c rfl rfl
    unfold getCurrentPrice getCurrentPriceTry getCurrentPriceFetch
    by_cases hfr : now - c.timestamp < mdCacheTimeout <;> simp [hfr]
  · rintro msg rfl rfl
    rfl
  · rintro c rfl rfl hstale
    unfold getCurrentPrice getCurrentPriceTry getCurrentPriceFetch
    have hfr : ¬ (now - c.timestamp < mdCacheTimeout) := by omega
    simp [hfr]
  · rintro rfl rfl
    rfl

theorem getCurrentPrice_recovers_from_failure_witness :
    getCurrentPrice (some demoPriceEntry) 120000 (MDFetch.throwErr "down")
      = Except.ok (some demoPriceEntry, some demoPriceEntry.data)
    ∧ getCurrentPrice none 120000 (MDFetch.throwErr "down")
      = Except.ok (none, none)
    ∧ getCurrentPrice (some demoPriceEntry) 120000 (MDFetch.respOk none)
      = Except.ok (some demoPriceEntry, none) := by
  refine ⟨?_, ?_, ?_⟩
  · exact (getCurrentPrice_recovers_from_failure (some demoPriceEntry) 120000
      (MDFetch.throwErr "down")).2.1 "down" demoPriceEntry rfl rfl
  · exact (getCurrentPrice_recovers_from_failure none 120000
      (MDFetch.throwErr "down")).2.2.1 "down" rfl rfl
  · exact (getCurrentPrice_recovers_from_failure (some demoPriceEntry) 120000
      (MDFetch.respOk none)).2.2.2.1 demoPriceEntry rfl rfl (by decide)

/-! ## Supporting lemmas for the quote transformation -/

@[simp]
theorem JSNum.isFin_fin (q : ℚ) : (JSNum.fin q).isFin = true := rfl

@[simp]
theorem JSNum.isNaNb_fin (q : ℚ) : (JSNum.fin q).isNaNb = false := rfl

@[simp]
theorem JSNum.isFiniteb_fin (q : ℚ) : (JSNum.fin q).isFiniteb = true := rfl

@[simp]
theorem JSNum.sub_fin (a b : ℚ) :
    (JSNum.fin a).sub (JSNum.fin b) = JSNum.fitDouble (a - b) := rfl

@[simp]
theorem JSNum.mul_fin (a b : ℚ) :
    (JSNum.fin a).mul (JSNum.fin b) = JSNum.fitDouble (a * b) := rfl

@[simp]
theorem JSNum.jround_fin (a : ℚ) :
    (JSNum.fin a).jround = JSNum.fin (round a : ℤ) := rfl

theorem JSNum.div_fin_of_ne (a b : ℚ) (hb : b ≠ 0) :
    (JSNum.fin a).div (JSNum.fin b) = JSNum.fitDouble (a / b) := by
  simp [JSNum.div, hb]

theorem JSNum.fitDouble_cases (q : ℚ) :
    JSNum.fitDouble q = JSNum.fin q ∨ JSNum.fitDouble q = JSNum.inf
      ∨ JSNum.fitDouble q = JSNum.neginf := by
  unfold JSNum.fitDouble
  split_ifs <;> simp

theorem JSNum.fitDouble_not_nan (q : ℚ) :
    (JSNum.fitDouble q).isNaNb = false := by
  unfold JSNum.fitDouble
  split_ifs <;> rfl

theorem JSNum.fitDouble_of_bounded (q : ℚ) (h1 : -maxDouble ≤ q)
    (h2 : q ≤ maxDouble) : JSNum.fitDouble q = JSNum.fin q := by
  unfold JSNum.fitDouble
  rw [if_neg (by linarith), if_neg (by linarith)]

theorem maxDouble_pos : (0 : ℚ) < maxDouble := by
  unfold maxDouble
  norm_num

theorem JSNum.not_nan_of_isFin (a : JSNum) (h : a.isFin = true) :
    a.isNaNb = false := by
  cases a with
  | fin q => rfl
  | nan => exact absurd h (by decide)
  | inf => rfl
  | neginf => rfl

theorem JSNum.eq_fin_of_isFin (a : JSNum) (h : a.isFin = true) :
    ∃ q, a = JSNum.fin q := by
  cases a with
  | fin q => exact ⟨q, rfl⟩
  | nan => exact absurd h (by decide)
  | inf => exact absurd h (by decide)
  | neginf => exact absurd h (by decide)

theorem safeParseNumber_isFin (v : JSVal) (d : ℚ) :
    (safeParseNumber v d).isFin = true := by
  cases v with
  | undef => rfl
  | null => rfl
  | present t n =>
    cases n with
    | fin q => simp [safeParseNumber]
    | nan => simp [safeParseNumber, JSNum.isNaNb, JSNum.isFiniteb, JSNum.isFin]
    | inf => simp [safeParseNumber, JSNum.isNaNb, JSNum.isFiniteb, JSNum.isFin]
    | neginf =>
      simp [safeParseNumber, JSNum.isNaNb, JSNum.isFiniteb, JSNum.isFin]

theorem safeParseNumber_eq_fin (v : JSVal) (d : ℚ) :
    ∃ q, safeParseNumber v d = JSNum.fin q :=
  JSNum.eq_fin_of_isFin _ (safeParseNumber_isFin v d)

theorem safeParseNumber_malformed (v : JSVal) (d : ℚ)
    (h : v.malformedNumeric = true) : safeParseNumber v d = JSNum.fin d := by
  cases v with
  | undef => rfl
  | null => rfl
  | present t n =>
    have hn : n.isFin = false := by
      simpa [JSVal.malformedNumeric] using h
    cases n with
    | fin q => simp [JSNum.isFin] at hn
    | nan => rfl
    | inf => rfl
    | neginf => rfl

/-- The transform's NaN/finiteness guard turns any number into a finite
one (defaulting to 0). -/
theorem guard_isFin (c : JSNum) :
    (if c.isNaNb ∨ ¬ c.isFiniteb then JSNum.fin 0 else c).isFin = true := by
  by_cases h : c.isNaNb = true ∨ ¬ c.isFiniteb = true
  · rw [if_pos h]
    rfl
  · rw [if_neg h]
    push_neg at h
    exact h.2

theorem qChangeRaw_isFin (p : QPayload) : (qChangeRaw p).isFin = true := by
  obtain ⟨lq, hl⟩ := safeParseNumber_eq_fin p.lastTradePrice 0
  obtain ⟨pq, hp⟩ := safeParseNumber_eq_fin p.previousClosePrice 0
  unfold qChangeRaw
  simp only [hl, hp, JSNum.sub_fin]
  split_ifs with h1 h2 h3
  · exact safeParseNumber_isFin _ _
  · rfl
  · push_neg at h3
    exact h3.2
  · rfl

theorem qChangePercentRaw_isFin (p : QPayload) :
    (qChangePercentRaw p).isFin = true := by
  unfold qChangePercentRaw
  dsimp only
  split_ifs with h1 h2 h3
  · exact safeParseNumber_isFin _ _
  · rfl
  · push_neg at h3
    exact h3.2
  · rfl

theorem qRound2_not_nan (q : ℚ) :
    (qRound2 (JSNum.fin q)).isNaNb = false := by
  unfold qRound2
  rw [JSNum.mul_fin]
  rcases JSNum.fitDouble_cases (q * 100) with h | h | h <;> rw [h]
  · rw [JSNum.jround_fin, JSNum.div_fin_of_ne _ _ (by norm_num)]
    exact JSNum.fitDouble_not_nan _
  · have h100 : (0 : ℚ) ≤ 100 := by norm_num
    simp [JSNum.jround, JSNum.div, h100, JSNum.isNaNb]
  · have h100 : (0 : ℚ) ≤ 100 := by norm_num
    simp [JSNum.jround, JSNum.div, h100, JSNum.isNaNb]

theorem qRound2_isFin_of_bounded (q : ℚ) (h1 : -maxDouble ≤ q * 100)
    (h2 : q * 100 ≤ maxDouble) : (qRound2 (JSNum.fin q)).isFin = true := by
  unfold qRound2
  rw [JSNum.mul_fin, JSNum.fitDouble_of_bounded _ h1 h2, JSNum.jround_fin,
    JSNum.div_fin_of_ne _ _ (by norm_num : (100 : ℚ) ≠ 0)]
  have hmax : (1 : ℚ) ≤ maxDouble := by
    unfold maxDouble
    norm_num
  have habs := abs_le.mp (abs_sub_round (q * 100))
  have hup : ((round (q * 100) : ℤ) : ℚ) / 100 ≤ maxDouble := by
    rw [div_le_iff₀ (by norm_num : (0 : ℚ) < 100)]
    nlinarith
  have hlo : -maxDouble ≤ ((round (q * 100) : ℤ) : ℚ) / 100 := by
    rw [le_div_iff₀ (by norm_num : (0 : ℚ) < 100)]
    nlinarith
  rw [JSNum.fitDouble_of_bounded _ hlo hup]
  rfl

/-- Claim C9, counterexample: the upstream `change` value 1e307 is a
finite double - it passes `safeParseNumber` and every isFinite guard -
yet the unguarded final rounding `Math.round(change * 100) / 100`
multiplies it past the double range, so the transform returns `change`
(and the defaulted `dayChange`) equal to Infinity, refuting
"never NaN or infinite" as stated. -/
theorem transformQuestradeQuote_change_can_overflow :
    (10 : ℚ) ^ 307 ≤ maxDouble
    ∧ (transformQuestradeQuote overflowQPayload).change = JSNum.inf
    ∧ (transformQuestradeQuote overflowQPayload).change.isFin = false
    ∧ (transformQuestradeQuote overflowQPayload).dayChange = JSNum.inf := by
  have hraw : qChangeRaw overflowQPayload = JSNum.fin ((10 : ℚ) ^ 307) := rfl
  have hover : maxDouble < (10 : ℚ) ^ 307 * 100 := by
    unfold maxDouble
    norm_num
  have hfit : JSNum.fitDouble ((10 : ℚ) ^ 307 * 100) = JSNum.inf := by
    unfold JSNum.fitDouble
    rw [if_pos hover]
  have hdiv : JSNum.inf.div (JSNum.fin 100) = JSNum.inf := by
    show (if (0 : ℚ) ≤ 100 then JSNum.inf else JSNum.neginf) = JSNum.inf
    rw [if_pos (by norm_num)]
  have hchange : (transformQuestradeQuote overflowQPayload).change
      = JSNum.inf := by
    show qRound2 (qChangeRaw overflowQPayload) = JSNum.inf
    rw [hraw]
    unfold qRound2
    rw [JSNum.mul_fin, hfit]
    show JSNum.inf.div (JSNum.fin 100) = JSNum.inf
    exact hdiv
  refine ⟨by unfold maxDouble; norm_num, hchange, by rw [hchange]; rfl, ?_⟩
  show (if overflowQPayload.dayChange ≠ JSVal.undef then
      safeParseNumber overflowQPayload.dayChange
    else qRound2 (qChangeRaw overflowQPayload)) = JSNum.inf
  split_ifs with hpresent
  · exact absurd rfl hpresent
  · exact hchange

/-- Claim C9 (amended): every directly parsed numeric field of the
transform is a finite number, defaulting to 0 when its input is absent,
null, or coerces to NaN or an infinity; no numeric field is ever NaN;
and the four derived fields (`change`, `changePercent`, `dayChange`,
`dayChangePercent`) are finite except that their final rounding
(`Math.round(x * 100) / 100`, unguarded in the source) overflows to an
infinity when the value being rounded exceeds one hundredth of the
double range - `dayChange`/`dayChangePercent` only inherit that
overflow when defaulted from `change`/`changePercent`, and are finite
whenever supplied by the upstream. -/
theorem transformQuestradeQuote_amended_numeric_safety (p : QPayload) :
    ((transformQuestradeQuote p).symbolId.isFin = true
     ∧ (transformQuestradeQuote p).lastTradePrice.isFin = true
     ∧ (transformQuestradeQuote p).lastTradeSize.isFin = true
     ∧ (transformQuestradeQuote p).bidPrice.isFin = true
     ∧ (transformQuestradeQuote p).bidSize.isFin = true
     ∧ (transformQuestradeQuote p).askPrice.isFin = true
     ∧ (transformQuestradeQuote p).askSize.isFin = true
     ∧ (transformQuestradeQuote p).openPrice.isFin = true
     ∧ (transformQuestradeQuote p).highPrice.isFin = true
     ∧ (transformQuestradeQuote p).lowPrice.isFin = true
     ∧ (transformQuestradeQuote p).closePrice.isFin = true
     ∧ (transformQuestradeQuote p).previousClosePrice.isFin = true
     ∧ (transformQuestradeQuote p).volume.isFin = true
     ∧ (transformQuestradeQuote p).averageVolume.isFin = true
     ∧ (transformQuestradeQuote p).volumeWeightedAveragePrice.isFin = true
     ∧ (transformQuestradeQuote p).week52High.isFin = true
     ∧ (transformQuestradeQuote p).week52Low.isFin = true
     ∧ (transformQuestradeQuote p).delay.isFin = true)
    ∧ ((transformQuestradeQuote p).change.isNaNb = false
     ∧ (transformQuestradeQuote p).changePercent.isNaNb = false
     ∧ (transformQuestradeQuote p).dayChange.isNaNb = false
     ∧ (transformQuestradeQuote p).dayChangePercent.isNaNb = false)
    ∧ ((∀ c, qChangeRaw p = JSNum.fin c →
          -maxDouble ≤ c * 100 → c * 100 ≤ maxDouble →
          (transformQuestradeQuote p).change.isFin = true)
     ∧ (∀ c, qChangePercentRaw p = JSNum.fin c →
          -maxDouble ≤ c * 100 → c * 100 ≤ maxDouble →
          (transformQuestradeQuote p).changePercent.isFin = true))
    ∧ ((p.dayChange ≠ JSVal.undef →
          (transformQuestradeQuote p).dayChange.isFin = true)
     ∧ (p.dayChangePercent ≠ JSVal.undef →
          (transformQuestradeQuote p).dayChangePercent.isFin = true)
     ∧ (p.dayChange = JSVal.undef →
          (transformQuestradeQuote p).dayChange
            = (transformQuestradeQuote p).change)
     ∧ (p.dayChangePercent = JSVal.undef →
          (transformQuestradeQuote p).dayChangePercent
            = (transformQuestradeQuote p).changePercent))
    ∧ ((p.symbolId.malformedNumeric = true →
          (transformQuestradeQuote p).symbolId = JSNum.fin 0)
     ∧ (p.lastTradePrice.malformedNumeric = true →
          (transformQuestradeQuote p).lastTradePrice = JSNum.fin 0)
     ∧ (p.lastTradeSize.malformedNumeric = true →
          (transformQuestradeQuote p).lastTradeSize = JSNum.fin 0)
     ∧ (p.bidPrice.malformedNumeric = true →
          (transformQuestradeQuote p).bidPrice = JSNum.fin 0)
     ∧ (p.bidSize.malformedNumeric = true →
          (transformQuestradeQuote p).bidSize = JSNum.fin 0)
     ∧ (p.askPrice.malformedNumeric = true →
          (transformQuestradeQuote p).askPrice = JSNum.fin 0)
     ∧ (p.askSize.malformedNumeric = true →
          (transformQuestradeQuote p).askSize = JSNum.fin 0)
     ∧ (p.openPrice.malformedNumeric = true →
          (transformQuestradeQuote p).openPrice = JSNum.fin 0)
     ∧ (p.highPrice.malformedNumeric = true →
          (transformQuestradeQuote p).highPrice = JSNum.fin 0)
     ∧ (p.lowPrice.malformedNumeric = true →
          (transformQuestradeQuote p).lowPrice = JSNum.fin 0)
     ∧ (p.closePrice.malformedNumeric = true →
          (transformQuestradeQuote p).closePrice = JSNum.fin 0)
     ∧ (p.previousClosePrice.malformedNumeric = true →
          (transformQuestradeQuote p).previousClosePrice = JSNum.fin 0)
     ∧ (p.volume.malformedNumeric = true →
          (transformQuestradeQuote p).volume = JSNum.fin 0)
     ∧ (p.averageVolume.malformedNumeric = true →
          (transformQuestradeQuote p).averageVolume = JSNum.fin 0)
     ∧ (p.VWAP.malformedNumeric = true →
          (transformQuestradeQuote p).volumeWeightedAveragePrice = JSNum.fin 0)
     ∧ (p.high52w.malformedNumeric = true →
          (transformQuestradeQuote p).week52High = JSNum.fin 0)
     ∧ (p.low52w.malformedNumeric = true →
          (transformQuestradeQuote p).week52Low = JSNum.fin 0)
     ∧ (p.delay.malformedNumeric = true →
          (transformQuestradeQuote p).delay = JSNum.fin 0)) := by
  obtain ⟨cc, hcc⟩ := JSNum.eq_fin_of_isFin _ (qChangeRaw_isFin p)
  obtain ⟨cp, hcp⟩ := JSNum.eq_fin_of_isFin _ (qChangePercentRaw_isFin p)
  refine ⟨?_, ?_, ?_, ?_, ?_⟩
  · exact ⟨safeParseNumber_isFin _ _, safeParseNumber_isFin _ _,
      safeParseNumber_isFin _ _, safeParseNumber_isFin _ _,
      safeParseNumber_isFin _ _, safeParseNumber_isFin _ _,
      safeParseNumber_isFin _ _, safeParseNumber_isFin _ _,
      safeParseNumber_isFin _ _, safeParseNumber_isFin _ _,
      safeParseNumber_isFin _ _, safeParseNumber_isFin _ _,
      safeParseNumber_isFin _ _, safeParseNumber_isFin _ _,
      safeParseNumber_isFin _ _, safeParseNumber_isFin _ _,
      safeParseNumber_isFin _ _, safeParseNumber_isFin _ _⟩
  · refine ⟨?_, ?_, ?_, ?_⟩
    · show (qRound2 (qChangeRaw p)).isNaNb = false
      rw [hcc]
      exact qRound2_not_nan cc
    · show (qRound2 (qChangePercentRaw p)).isNaNb = false
      rw [hcp]
      exact qRound2_not_nan cp
    · show (if p.dayChange ≠ JSVal.undef then safeParseNumber p.dayChange
          else qRound2 (qChangeRaw p)).isNaNb = false
      split_ifs
      · exact JSNum.not_nan_of_isFin _ (safeParseNumber_isFin _ _)
      · rw [hcc]
        exact qRound2_not_nan cc
    · show (if p.dayChangePercent ≠ JSVal.undef then
            safeParseNumber p.dayChangePercent
          else qRound2 (qChangePercentRaw p)).isNaNb = false
      split_ifs
      · exact JSNum.not_nan_of_isFin _ (safeParseNumber_isFin _ _)
      · rw [hcp]
        exact qRound2_not_nan cp
  · constructor
    · intro c hc hb1 hb2
      show (qRound2 (qChangeRaw p)).isFin = true
      rw [hc]
      exact qRound2_isFin_of_bounded c hb1 hb2
    · intro c hc hb1 hb2
      show (qRound2 (qChangePercentRaw p)).isFin = true
      rw [hc]
      exact qRound2_isFin_of_bounded c hb1 hb2
  · refine ⟨?_, ?_, ?_, ?_⟩
    · intro h
      show (if p.dayChange ≠ JSVal.undef then safeParseNumber p.dayChange
          else qRound2 (qChangeRaw p)).isFin = true
      rw [if_pos h]
      exact safeParseNumber_isFin _ _
    · intro h
      show (if p.dayChangePercent ≠ JSVal.undef then
            safeParseNumber p.dayChangePercent
          else qRound2 (qChangePercentRaw p)).isFin = true
      rw [if_pos h]
      exact safeParseNumber_isFin _ _
    · intro h
      show (if p.dayChange ≠ JSVal.undef then safeParseNumber p.dayChange
          else qRound2 (qChangeRaw p)) = qRound2 (qChangeRaw p)
      rw [if_neg (not_not_intro h)]
    · intro h
      show (if p.dayChangePercent ≠ JSVal.undef then
            safeParseNumber p.dayChangePercent
          else qRound2 (qChangePercentRaw p)) = qRound2 (qChangePercentRaw p)
      rw [if_neg (not_not_intro h)]
  · exact ⟨fun h => safeParseNumber_malformed _ _ h,
      fun h => safeParseNumber_malformed _ _ h,
      fun h => safeParseNumber_malformed _ _ h,
      fun h => safeParseNumber_malformed _ _ h,
      fun h => safeParseNumber_malformed _ _ h,
      fun h => safeParseNumber_malformed _ _ h,
      fun h => safeParseNumber_malformed _ _ h,
      fun h => safeParseNumber_malformed _ _ h,
      fun h => safeParseNumber_malformed _ _ h,
      fun h => safeParseNumber_malformed _ _ h,
      fun h => safeParseNumber_malformed _ _ h,
      fun h => safeParseNumber_malformed _ _ h,
      fun h => safeParseNumber_malformed _ _ h,
      fun h => safeParseNumber_malformed _ _ h,
      fun h => safeParseNumber_malformed _ _ h,
      fun h => safeParseNumber_malformed _ _ h,
      fun h => safeParseNumber_malformed _ _ h,
      fun h => safeParseNumber_malformed _ _ h⟩

theorem transformQuestradeQuote_amended_numeric_safety_witness :
    ((transformQuestradeQuote emptyQPayload).lastTradePrice.isFin = true)
    ∧ (transformQuestradeQuote emptyQPayload).change.isNaNb = false
    ∧ (transformQuestradeQuote emptyQPayload).change.isFin = true
    ∧ (transformQuestradeQuote emptyQPayload).changePercent.isFin = true
    ∧ (transformQuestradeQuote presentDayChangeQPayload).dayChange.isFin = true
    ∧ (transformQuestradeQuote presentDayChangeQPayload).dayChangePercent.isFin
        = true
    ∧ (transformQuestradeQuote emptyQPayload).dayChange
        = (transformQuestradeQuote emptyQPayload).change
    ∧ (transformQuestradeQuote emptyQPayload).dayChangePercent
        = (transformQuestradeQuote emptyQPayload).changePercent
    ∧ (transformQuestradeQuote emptyQPayload).symbolId = JSNum.fin 0
    ∧ (transformQuestradeQuote emptyQPayload).lastTradePrice = JSNum.fin 0
    ∧ (transformQuestradeQuote emptyQPayload).lastTradeSize = JSNum.fin 0
    ∧ (transformQuestradeQuote emptyQPayload).bidPrice = JSNum.fin 0
    ∧ (transformQuestradeQuote emptyQPayload).bidSize = JSNum.fin 0
    ∧ (transformQuestradeQuote emptyQPayload).askPrice = JSNum.fin 0
    ∧ (transformQuestradeQuote emptyQPayload).askSize = JSNum.fin 0
    ∧ (transformQuestradeQuote emptyQPayload).openPrice = JSNum.fin 0
    ∧ (transformQuestradeQuote emptyQPayload).highPrice = JSNum.fin 0
    ∧ (transformQuestradeQuote emptyQPayload).lowPrice = JSNum.fin 0
    ∧ (transformQuestradeQuote emptyQPayload).closePrice = JSNum.fin 0
    ∧ (transformQuestradeQuote emptyQPayload).previousClosePrice = JSNum.fin 0
    ∧ (transformQuestradeQuote emptyQPayload).volume = JSNum.fin 0
    ∧ (transformQuestradeQuote emptyQPayload).averageVolume = JSNum.fin 0
    ∧ (transformQuestradeQuote emptyQPayload).volumeWeightedAveragePrice
        = JSNum.fin 0
    ∧ (transformQuestradeQuote emptyQPayload).week52High = JSNum.fin 0
    ∧ (transformQuestradeQuote emptyQPayload).week52Low = JSNum.fin 0
    ∧ (transformQuestradeQuote emptyQPayload).delay = JSNum.fin 0 := by
  have h := transformQuestradeQuote_amended_numeric_safety emptyQPayload
  have h2 := transformQuestradeQuote_amended_numeric_safety
    presentDayChangeQPayload
  refine ⟨h.1.2.1, h.2.1.1, ?_, ?_, ?_, ?_, ?_, ?_, ?_⟩
  · exact h.2.2.1.1 0 (by decide)
      (by have := maxDouble_pos; linarith)
      (by have := maxDouble_pos; linarith)
  · exact h.2.2.1.2 0 (by decide)
      (by have := maxDouble_pos; linarith)
      (by have := maxDouble_pos; linarith)
  · exact h2.2.2.2.1.1 (by decide)
  · exact h2.2.2.2.1.2.1 (by decide)
  · exact h.2.2.2.1.2.2.1 rfl
  · exact h.2.2.2.1.2.2.2 rfl
  · have hE := h.2.2.2.2
    exact ⟨hE.1 rfl,
      hE.2.1 rfl, hE.2.2.1 rfl, hE.2.2.2.1 rfl, hE.2.2.2.2.1 rfl,
      hE.2.2.2.2.2.1 rfl, hE.2.2.2.2.2.2.1 rfl, hE.2.2.2.2.2.2.2.1 rfl,
      hE.2.2.2.2.2.2.2.2.1 rfl, hE.2.2.2.2.2.2.2.2.2.1 rfl,
      hE.2.2.2.2.2.2.2.2.2.2.1 rfl, hE.2.2.2.2.2.2.2.2.2.2.2.1 rfl,
      hE.2.2.2.2.2.2.2.2.2.2.2.2.1 rfl,
      hE.2.2.2.2.2.2.2.2.2.2.2.2.2.1 rfl,
      hE.2.2.2.2.2.2.2.2.2.2.2.2.2.2.1 rfl,
      hE.2.2.2.2.2.2.2.2.2.2.2.2.2.2.2.1 rfl,
      hE.2.2.2.2.2.2.2.2.2.2.2.2.2.2.2.2.1 rfl,
      hE.2.2.2.2.2.2.2.2.2.2.2.2.2.2.2.2.2 rfl⟩

/-! ## Supporting lemmas for the credential invariant -/

theorem countP_updateFirst (p0 : TokenRow → Bool) (f : TokenRow → TokenRow)
    (pred : TokenRow → Bool) (hf : ∀ r, pred (f r) = pred r) :
    ∀ s : Store, (updateFirst p0 f s).countP pred = s.countP pred := by
  intro s
  induction s with
  | nil => rfl
  | cons r rest ih =>
    unfold updateFirst
    by_cases h : p0 r = true
    · simp only [if_pos h, List.countP_cons, hf]
    · simp only [if_neg h, List.countP_cons, ih]

theorem countP_map_pred (f : TokenRow → TokenRow) (pred : TokenRow → Bool)
    (hf : ∀ r, pred (f r) = pred r) (s : Store) :
    (s.map f).countP pred = s.countP pred := by
  induction s with
  | nil => rfl
  | cons r rest ih => simp [List.countP_cons, hf, ih]

theorem credInvariant_recordTokenError (s : Store) (person msg : String)
    (now : Int) (q : String) (h : credInvariant s q) :
    credInvariant (recordTokenError s person msg now) q := by
  unfold credInvariant recordTokenError
  constructor
  · rw [countP_updateFirst (isActiveRefreshFor person) (bumpError msg now)
      (isActiveRefreshFor q) (fun r => rfl) s]
    exact h.1
  · rw [countP_updateFirst (isActiveRefreshFor person) (bumpError msg now)
      (isActiveAccessFor q) (fun r => rfl) s]
    exact h.2

theorem isActiveRefreshFor_iff (person : String) (r : TokenRow) :
    isActiveRefreshFor person r = true ↔
      r.personName = person ∧ r.type = TokenType.refresh ∧ r.isActive = true := by
  simp [isActiveRefreshFor, and_assoc]

theorem isActiveAccessFor_iff (person : String) (r : TokenRow) :
    isActiveAccessFor person r = true ↔
      r.personName = person ∧ r.type = TokenType.access ∧ r.isActive = true := by
  simp [isActiveAccessFor, and_assoc]

theorem credInvariant_refreshRotation (store : Store) (person : String)
    (resp : OAuthResp) (now : Int) (q : String) (h : credInvariant store q) :
    credInvariant
      ((refreshWrites person resp now).foldl (fun s w => w s) store) q := by
  have hstore :
      (refreshWrites person resp now).foldl (fun s w => w s) store
        = ((store.filter (fun r => ¬ (r.personName = person ∧ r.isActive)))
            ++ [newAccessRow person (formatApiServer resp.api_server) resp now])
            ++ [newRefreshRow person resp now] := rfl
  rw [hstore]
  unfold credInvariant
  rw [List.countP_append, List.countP_append, List.countP_append,
    List.countP_append]
  by_cases hq : q = person
  · subst hq
    have hfilter : ∀ pred : TokenRow → Bool,
        (∀ r, pred r = true → r.personName = q ∧ r.isActive = true) →
        (store.filter
          (fun r => ¬ (r.personName = q ∧ r.isActive))).countP pred = 0 := by
      intro pred hpred
      rw [List.countP_eq_zero]
      intro r hr hpr
      rw [List.mem_filter] at hr
      exact (of_decide_eq_true hr.2) (hpred r hpr)
    have hr0 : (store.filter
        (fun r => ¬ (r.personName = q ∧ r.isActive))).countP
        (isActiveRefreshFor q) = 0 :=
      hfilter _ (fun r hr => by
        have hh := (isActiveRefreshFor_iff q r).mp hr
        exact ⟨hh.1, hh.2.2⟩)
    have ha0 : (store.filter
        (fun r => ¬ (r.personName = q ∧ r.isActive))).countP
        (isActiveAccessFor q) = 0 :=
      hfilter _ (fun r hr => by
        have hh := (isActiveAccessFor_iff q r).mp hr
        exact ⟨hh.1, hh.2.2⟩)
    rw [hr0, ha0]
    constructor
    · simp [isActiveRefreshFor, newAccessRow, newRefreshRow, List.countP_cons]
    · simp [isActiveAccessFor, newAccessRow, newRefreshRow, List.countP_cons]
  · have hq' : person ≠ q := fun hh => hq hh.symm
    have hacc1 : ([newAccessRow person (formatApiServer resp.api_server) resp
        now].countP (isActiveRefreshFor q)) = 0 := by
      simp [isActiveRefreshFor, newAccessRow, hq', List.countP_cons]
    have hacc2 : ([newAccessRow person (formatApiServer resp.api_server) resp
        now].countP (isActiveAccessFor q)) = 0 := by
      simp [isActiveAccessFor, newAccessRow, hq', List.countP_cons]
    have href1 : ([newRefreshRow person resp now].countP
        (isActiveRefreshFor q)) = 0 := by
      simp [isActiveRefreshFor, newRefreshRow, hq', List.countP_cons]
    have href2 : ([newRefreshRow person resp now].countP
        (isActiveAccessFor q)) = 0 := by
      simp [isActiveAccessFor, newRefreshRow, hq', List.countP_cons]
    have hle1 := (List.filter_sublist
      (p := fun r => ¬ (r.personName = person ∧ r.isActive))
      store).countP_le (isActiveRefreshFor q)
    have hle2 := (List.filter_sublist
      (p := fun r => ¬ (r.personName = person ∧ r.isActive))
      store).countP_le (isActiveAccessFor q)
    have h1 := h.1
    have h2 := h.2
    rw [hacc1, hacc2, href1, href2]
    constructor <;> omega

theorem credInvariant_setupRotation (store : Store) (person : String)
    (resp : OAuthResp) (now : Int) (q : String) (h : credInvariant store q) :
    credInvariant
      (((store.filter (fun r => ¬ r.personName = person))
          ++ [newRefreshRow person resp now])
        ++ [newAccessRow person (formatApiServer resp.api_server) resp now])
      q := by
  unfold credInvariant
  rw [List.countP_append, List.countP_append, List.countP_append,
    List.countP_append]
  by_cases hq : q = person
  · subst hq
    have hfilter : ∀ pred : TokenRow → Bool,
        (∀ r, pred r = true → r.personName = q) →
        (store.filter (fun r => ¬ r.personName = q)).countP pred = 0 := by
      intro pred hpred
      rw [List.countP_eq_zero]
      intro r hr hpr
      rw [List.mem_filter] at hr
      exact (of_decide_eq_true hr.2) (hpred r hpr)
    have hr0 : (store.filter (fun r => ¬ r.personName = q)).countP
        (isActiveRefreshFor q) = 0 :=
      hfilter _ (fun r hr => ((isActiveRefreshFor_iff q r).mp hr).1)
    have ha0 : (store.filter (fun r => ¬ r.personName = q)).countP
        (isActiveAccessFor q) = 0 :=
      hfilter _ (fun r hr => ((isActiveAccessFor_iff q r).mp hr).1)
    rw [hr0, ha0]
    constructor
    · simp [isActiveRefreshFor, newAccessRow, newRefreshRow, List.countP_cons]
    · simp [isActiveAccessFor, newAccessRow, newRefreshRow, List.countP_cons]
  · have hq' : person ≠ q := fun hh => hq hh.symm
    have hacc1 : ([newAccessRow person (formatApiServer resp.api_server) resp
        now].countP (isActiveRefreshFor q)) = 0 := by
      simp [isActiveRefreshFor, newAccessRow, hq', List.countP_cons]
    have hacc2 : ([newAccessRow person (formatApiServer resp.api_server) resp
        now].countP (isActiveAccessFor q)) = 0 := by
      simp [isActiveAccessFor, newAccessRow, hq', List.countP_cons]
    have href1 : ([newRefreshRow person resp now].countP
        (isActiveRefreshFor q)) = 0 := by
      simp [isActiveRefreshFor, newRefreshRow, hq', List.countP_cons]
    have href2 : ([newRefreshRow person resp now].countP
        (isActiveAccessFor q)) = 0 := by
      simp [isActiveAccessFor, newRefreshRow, hq', List.countP_cons]
    have hle1 := (List.filter_sublist
      (p := fun r => ¬ r.personName = person) store).countP_le
      (isActiveRefreshFor q)
    have hle2 := (List.filter_sublist
      (p := fun r => ¬ r.personName = person) store).countP_le
      (isActiveAccessFor q)
    have h1 := h.1
    have h2 := h.2
    rw [hacc1, hacc2, href1, href2]
    constructor <;> omega

theorem credInvariant_deletePersonTokens (store : Store) (person q : String)
    (h : credInvariant store q) :
    credInvariant (deletePersonTokens store person) q := by
  unfold deletePersonTokens credInvariant
  by_cases hq : q = person
  · subst hq
    have hzero : ∀ pred : TokenRow → Bool,
        (∀ r, pred r = true → r.personName = q ∧ r.isActive = true) →
        (store.map (fun r =>
          if r.personName = q then { r with isActive := false } else r)).countP
          pred = 0 := by
      intro pred hpred
      rw [List.countP_eq_zero]
      intro a ha hpa
      rw [List.mem_map] at ha
      obtain ⟨r, hr, rfl⟩ := ha
      by_cases hp : r.personName = q
      · rw [if_pos hp] at hpa
        have := (hpred _ hpa).2
        simp at this
      · rw [if_neg hp] at hpa
        exact hp (hpred _ hpa).1
    constructor
    · rw [hzero _ (fun r hr => by
        have hh := (isActiveRefreshFor_iff q r).mp hr
        exact ⟨hh.1, hh.2.2⟩)]
      omega
    · rw [hzero _ (fun r hr => by
        have hh := (isActiveAccessFor_iff q r).mp hr
        exact ⟨hh.1, hh.2.2⟩)]
      omega
  · have hpt : ∀ pred : TokenRow → Bool,
        (∀ r, pred r = true → r.personName = q) →
        ∀ r, pred (if r.personName = person then { r with isActive := false }
          else r) = pred r := by
      intro pred hpred r
      by_cases hp : r.personName = person
      · rw [if_pos hp]
        have hL : pred { r with isActive := false } = false := by
          by_contra hc
          rw [Bool.not_eq_false] at hc
          have hname : r.personName = q := hpred { r with isActive := false } hc
          rw [hp] at hname
          exact hq hname.symm
        have hR : pred r = false := by
          by_contra hc
          rw [Bool.not_eq_false] at hc
          have hname : r.personName = q := hpred _ hc
          rw [hp] at hname
          exact hq hname.symm
        rw [hL, hR]
      · rw [if_neg hp]
    constructor
    · rw [countP_map_pred _ _ (hpt _ (fun r hr =>
        ((isActiveRefreshFor_iff q r).mp hr).1)) store]
      exact h.1
    · rw [countP_map_pred _ _ (hpt _ (fun r hr =>
        ((isActiveAccessFor_iff q r).mp hr).1)) store]
      exact h.2

/-- Claim C3: starting from a store satisfying the per-person invariant
(at most one active refresh credential and at most one active access
credential per person), every completed lifecycle operation - a
`refreshAccessToken` run to success or failure, a `setupPersonToken` run
to success or failure, a `deletePersonTokens` - leaves the invariant
holding for every person. -/
theorem lifecycle_ops_preserve_credential_invariant
    (store : Store) (op : LifecycleOp) (q : String)
    (h : credInvariant store q) :
    credInvariant (applyLifecycleOp store op) q := by
  cases op with
  | refreshOp person now upstream =>
    show credInvariant (refreshAccessToken store person now upstream).1 q
    unfold refreshAccessToken
    cases hf : findLatest (isActiveRefreshFor person) store with
    | none => exact credInvariant_recordTokenError _ _ _ _ _ h
    | some rdoc =>
      by_cases hfmt : rdoc.token = "" ∨ rdoc.token.length < 20
      · simp only [if_pos hfmt]
        exact credInvariant_recordTokenError _ _ _ _ _ h
      · simp only [if_neg hfmt]
        cases upstream with
        | error f => exact credInvariant_recordTokenError _ _ _ _ _ h
        | ok resp =>
          by_cases hmt : resp.access_token = "" ∨ resp.refresh_token = ""
          · simp only [if_pos hmt]
            exact credInvariant_recordTokenError _ _ _ _ _ h
          · simp only [if_neg hmt]
            exact credInvariant_refreshRotation _ _ _ _ _ h
  | setupOp person refreshToken now upstream =>
    show credInvariant (setupPersonToken store person refreshToken now
      upstream).1 q
    unfold setupPersonToken
    by_cases hfmt : refreshToken = "" ∨ refreshToken.length < 20
    · simp only [if_pos hfmt]
      exact h
    · simp only [if_neg hfmt]
      cases upstream with
      | error f => exact h
      | ok resp =>
        by_cases hmt : resp.access_token = "" ∨ resp.refresh_token = ""
        · simp only [if_pos hmt]
          exact h
        · simp only [if_neg hmt]
          exact credInvariant_setupRotation _ _ _ _ _ h
  | deleteOp person => exact credInvariant_deletePersonTokens _ _ _ h

theorem lifecycle_ops_preserve_credential_invariant_witness :
    credInvariant [aliceOldAccess, aliceOldRefresh] "alice"
    ∧ credInvariant
        (applyLifecycleOp [aliceOldAccess, aliceOldRefresh]
          (LifecycleOp.refreshOp "alice" 1000 (Except.ok demoOAuthResp)))
        "alice"
    ∧ credInvariant
        (applyLifecycleOp [aliceOldAccess, aliceOldRefresh]
          (LifecycleOp.deleteOp "alice"))
        "alice" :=
  ⟨by decide,
   lifecycle_ops_preserve_credential_invariant [aliceOldAccess, aliceOldRefresh]
     (LifecycleOp.refreshOp "alice" 1000 (Except.ok demoOAuthResp)) "alice"
     (by decide),
   lifecycle_ops_preserve_credential_invariant [aliceOldAccess, aliceOldRefresh]
     (LifecycleOp.deleteOp "alice") "alice" (by decide)⟩

/-! ## Supporting lemmas for the rate limiter -/

theorem waitForRateLimit_characterization (mps : Nat) (s : RLState) (now : Nat)
    (hmps : 1 ≤ mps) (hadm : s.lastResetTime ≤ now)
    (hcnt : s.requestsThisSecond ≤ mps) :
    (s.lastResetTime + 1000 ≤ now ∧
      waitForRateLimit mps s now = (RLState.mk now 1, now))
    ∨ (now < s.lastResetTime + 1000 ∧ s.requestsThisSecond < mps ∧
      waitForRateLimit mps s now
        = (RLState.mk s.lastResetTime (s.requestsThisSecond + 1), now))
    ∨ (now < s.lastResetTime + 1000 ∧ s.requestsThisSecond = mps ∧
      waitForRateLimit mps s now
        = (RLState.mk (s.lastResetTime + 1000) 1, s.lastResetTime + 1000)) := by
  unfold waitForRateLimit
  by_cases h1 : 1000 ≤ now - s.lastResetTime
  · left
    refine ⟨by omega, ?_⟩
    rw [if_pos h1]
    have h0 : ¬ (mps ≤ (RLState.mk now 0).requestsThisSecond) := by
      simp
      omega
    rw [if_neg h0]
  · right
    by_cases h2 : mps ≤ s.requestsThisSecond
    · right
      refine ⟨by omega, le_antisymm hcnt h2, ?_⟩
      rw [if_neg h1, if_pos h2]
      have hw : 0 < 1000 - (now - s.lastResetTime) := by omega
      rw [if_pos hw]
      have ht : now + (1000 - (now - s.lastResetTime))
          = s.lastResetTime + 1000 := by omega
      rw [ht]
    · left
      refine ⟨by omega, by omega, ?_⟩
      rw [if_neg h1, if_neg h2]

theorem waitForRateLimit_start_ge (mps : Nat) (s : RLState) (now : Nat) :
    now ≤ (waitForRateLimit mps s now).2 := by
  simp only [waitForRateLimit]
  split_ifs <;> omega

theorem runRL_cons (mps : Nat) (s : RLState) (a : Nat) (rest : List Nat) :
    runRL mps s (a :: rest)
      = ((runRL mps (waitForRateLimit mps s a).1 rest).1,
         ((waitForRateLimit mps s a).1.lastResetTime,
          (waitForRateLimit mps s a).2)
           :: (runRL mps (waitForRateLimit mps s a).1 rest).2) := rfl

theorem runRL_delays_never_rejects (mps : Nat) :
    ∀ (as : List Nat) (s : RLState),
      ((runRL mps s as).2).length = as.length
      ∧ List.Forall₂ (fun a (e : Nat × Nat) => a ≤ e.2) as (runRL mps s as).2 := by
  intro as
  induction as with
  | nil => exact fun s => ⟨rfl, List.Forall₂.nil⟩
  | cons a rest ih =>
    intro s
    rw [runRL_cons]
    exact ⟨by simpa using (ih (waitForRateLimit mps s a).1).1,
      List.Forall₂.cons (waitForRateLimit_start_ge mps s a)
        (ih (waitForRateLimit mps s a).1).2⟩

theorem admissibleRL_cons (mps : Nat) (s : RLState) (a : Nat)
    (rest : List Nat) (h : admissibleRL mps s (a :: rest) = true) :
    s.lastResetTime ≤ a
    ∧ admissibleRL mps (waitForRateLimit mps s a).1 rest = true := by
  unfold admissibleRL at h
  rw [Bool.and_eq_true] at h
  exact ⟨of_decide_eq_true h.1, h.2⟩

theorem countP_cons_window (x y w : Nat) (l : List (Nat × Nat)) :
    ((x, y) :: l).countP (fun e => decide (e.1 = w))
      = l.countP (fun e => decide (e.1 = w)) + (if x = w then 1 else 0) := by
  rw [List.countP_cons]
  by_cases h : x = w <;> simp [h]

theorem runRL_window_bound (mps : Nat) (hmps : 1 ≤ mps) :
    ∀ (as : List Nat) (s : RLState),
      s.requestsThisSecond ≤ mps →
      admissibleRL mps s as = true →
      ∀ w : Nat,
        (w = s.lastResetTime →
          ((runRL mps s as).2.countP (fun e => decide (e.1 = w)))
            + s.requestsThisSecond ≤ mps)
        ∧ (w ≠ s.lastResetTime →
          ((runRL mps s as).2.countP (fun e => decide (e.1 = w))) ≤ mps)
        ∧ (w < s.lastResetTime →
          (runRL mps s as).2.countP (fun e => decide (e.1 = w)) = 0) := by
  intro as
  induction as with
  | nil =>
    intro s hcnt _ w
    refine ⟨fun _ => ?_, fun _ => ?_, fun _ => rfl⟩
    · rw [show (runRL mps s []).2 = [] from rfl, List.countP_nil]
      omega
    · rw [show (runRL mps s []).2 = [] from rfl, List.countP_nil]
      omega
  | cons a rest ih =>
    intro s hcnt hadm w
    obtain ⟨hle, hadm2⟩ := admissibleRL_cons mps s a rest hadm
    rcases waitForRateLimit_characterization mps s a hmps hle hcnt with
      ⟨hA, heq⟩ | ⟨hB1, hB2, heq⟩ | ⟨hC1, hC2, heq⟩
    · -- window reset to `a`, counter restarts at 1
      rw [heq] at hadm2
      have ih1 := (ih (RLState.mk a 1) (by simpa using hmps) hadm2 w).1
      have ih2 := (ih (RLState.mk a 1) (by simpa using hmps) hadm2 w).2.1
      have ih3 := (ih (RLState.mk a 1) (by simpa using hmps) hadm2 w).2.2
      dsimp only at ih1 ih2 ih3
      rw [runRL_cons, heq]
      dsimp only
      rw [countP_cons_window]
      refine ⟨fun hws => ?_, fun hws => ?_, fun hw => ?_⟩
      · rw [if_neg (by omega : ¬ (a = w)), ih3 (by omega)]
        omega
      · by_cases hwa : w = a
        · rw [if_pos hwa.symm]
          have := ih1 hwa
          omega
        · rw [if_neg (fun hh => hwa hh.symm)]
          have := ih2 hwa
          omega
      · rw [if_neg (by omega : ¬ (a = w)), ih3 (by omega)]
    · -- same window, counter increments by one
      rw [heq] at hadm2
      have ih1 := (ih (RLState.mk s.lastResetTime (s.requestsThisSecond + 1))
        (by simpa using hB2) hadm2 w).1
      have ih2 := (ih (RLState.mk s.lastResetTime (s.requestsThisSecond + 1))
        (by simpa using hB2) hadm2 w).2.1
      have ih3 := (ih (RLState.mk s.lastResetTime (s.requestsThisSecond + 1))
        (by simpa using hB2) hadm2 w).2.2
      dsimp only at ih1 ih2 ih3
      rw [runRL_cons, heq]
      dsimp only
      rw [countP_cons_window]
      refine ⟨fun hws => ?_, fun hws => ?_, fun hw => ?_⟩
      · rw [if_pos hws.symm]
        have := ih1 hws
        omega
      · rw [if_neg (fun hh => hws hh.symm)]
        have := ih2 hws
        omega
      · rw [if_neg (by omega : ¬ (s.lastResetTime = w)), ih3 (by omega)]
    · -- per-second budget hit: call delayed to the next window
      rw [heq] at hadm2
      have ih1 := (ih (RLState.mk (s.lastResetTime + 1000) 1)
        (by simpa using hmps) hadm2 w).1
      have ih2 := (ih (RLState.mk (s.lastResetTime + 1000) 1)
        (by simpa using hmps) hadm2 w).2.1
      have ih3 := (ih (RLState.mk (s.lastResetTime + 1000) 1)
        (by simpa using hmps) hadm2 w).2.2
      dsimp only at ih1 ih2 ih3
      rw [runRL_cons, heq]
      dsimp only
      rw [countP_cons_window]
      refine ⟨fun hws => ?_, fun hws => ?_, fun hw => ?_⟩
      · rw [if_neg (by omega : ¬ (s.lastResetTime + 1000 = w)),
          ih3 (by omega)]
        omega
      · by_cases hwt : w = s.lastResetTime + 1000
        · rw [if_pos hwt.symm]
          have := ih1 hwt
          omega
        · rw [if_neg (fun hh => hwt hh.symm)]
          have := ih2 hwt
          omega
      · rw [if_neg (by omega : ¬ (s.lastResetTime + 1000 = w)),
          ih3 (by omega)]

theorem pLimit_active_le (m : Nat) :
    ∀ (events : List PLimitEvent) (s : PLimitState),
      s.active ≤ m → (events.foldl (pLimitStep m) s).active ≤ m := by
  intro events
  induction events with
  | nil => exact fun s h => h
  | cons e rest ih =>
    intro s h
    apply ih
    cases e with
    | submit =>
      simp only [pLimitStep]
      split_ifs with hc
      · exact hc.1
      · exact h
    | finish =>
      simp only [pLimitStep]
      split_ifs <;> dsimp only <;> omega

/-- Claim C5 (amended): the per-second cap is enforced per counter
window (the spans between resets of the shared counter), not per
rolling one-second window.  For every sequential admissible trace from
a fresh client state: every call is admitted and only ever delayed
(one start per call, at or after its entry time); at most
`maxPerSecond` starts share any one counter window; and the spec-model
of the `p-limit` gate the client wraps calls in never has more than
`maxConcurrent` tasks running. -/
theorem rateLimiter_amended_bounds :
    (∀ (mps : Nat) (s : RLState) (as : List Nat),
        ((runRL mps s as).2).length = as.length
        ∧ List.Forall₂ (fun a (e : Nat × Nat) => a ≤ e.2) as
            (runRL mps s as).2)
    ∧ (∀ (mps t0 : Nat) (as : List Nat) (w : Nat),
        1 ≤ mps →
        admissibleRL mps (RLState.mk t0 0) as = true →
        ((runRL mps (RLState.mk t0 0) as).2.countP
          (fun e => decide (e.1 = w))) ≤ mps)
    ∧ (∀ (m : Nat) (events : List PLimitEvent),
        (pLimitRun m events).active ≤ m) := by
  refine ⟨fun mps s as => runRL_delays_never_rejects mps as s, ?_, ?_⟩
  · intro mps t0 as w hmps hadm
    have hb := runRL_window_bound mps hmps as (RLState.mk t0 0)
      (Nat.zero_le mps) hadm w
    dsimp only at hb
    by_cases hw : w = t0
    · have := hb.1 hw
      omega
    · exact hb.2.1 hw
  · intro m events
    exact pLimit_active_le m events (PLimitState.mk 0 0) (Nat.zero_le m)

theorem rateLimiter_amended_bounds_witness :
    (((runRL 2 (RLState.mk 0 0) [0, 1, 999, 1000]).2).length = 4
      ∧ List.Forall₂ (fun a (e : Nat × Nat) => a ≤ e.2) [0, 1, 999, 1000]
          (runRL 2 (RLState.mk 0 0) [0, 1, 999, 1000]).2)
    ∧ ((1 : Nat) ≤ 2
      ∧ admissibleRL 2 (RLState.mk 0 0) [0, 1, 999, 1000] = true)
    ∧ ((runRL 2 (RLState.mk 0 0) [0, 1, 999, 1000]).2.countP
        (fun e => decide (e.1 = 1000))) ≤ 2
    ∧ (pLimitRun 3 [PLimitEvent.submit, PLimitEvent.submit,
        PLimitEvent.submit, PLimitEvent.submit, PLimitEvent.finish,
        PLimitEvent.submit]).active ≤ 3 := by
  refine ⟨?_, ⟨by decide, by decide⟩, ?_, ?_⟩
  · exact rateLimiter_amended_bounds.1 2 (RLState.mk 0 0) [0, 1, 999, 1000]
  · exact rateLimiter_amended_bounds.2.1 2 0 [0, 1, 999, 1000] 1000
      (by decide) (by decide)
  · exact rateLimiter_amended_bounds.2.2 3 [PLimitEvent.submit,
      PLimitEvent.submit, PLimitEvent.submit, PLimitEvent.submit,
      PLimitEvent.finish, PLimitEvent.submit]

end Spec2Proof
